import Mathlib

/-!
Verification of the ABsmartly Claude Code Bridge (`index.js`) against its
specification. The bridge multiplexes conversations, each backed by one
spawned CLI process speaking line-delimited JSON over stdio; it demultiplexes
the raw stdout chunks into lines, translates each parsed record into
normalized SSE frames for the (at most one) bound sink, and supervises
process lifecycle, session resumption and control messages.

The development shallowly embeds the JavaScript source: JSON values become an
inductive `Json`; the ES `Map`s become association lists with insertion-order
semantics; the built-in `JSON.parse` is passed in as an explicit parse
function (an oracle for the platform parser); jsdom queries are likewise an
explicit query function. Fallible JavaScript evaluation (thrown exceptions)
is modelled with `Except`.
-/

namespace Bridge

/-- A JavaScript JSON value (result of `JSON.parse`). -/
inductive Json where
  | null
  | bool (b : Bool)
  | num (n : Int)
  | str (s : String)
  | arr (elems : List Json)
  | obj (fields : List (String × Json))

/-- JavaScript truthiness of a JSON value: `null`, `false`, `0` and the empty
string are falsy; every array and object is truthy. -/
def Json.truthy : Json → Bool
  | .null => false
  | .bool b => b
  | .num n => n != 0
  | .str s => !s.isEmpty
  | .arr _ => true
  | .obj _ => true

/-- Truthiness of a possibly-`undefined` value (`none` models `undefined`). -/
def jsTruthyOpt : Option Json → Bool
  | none => false
  | some v => v.truthy

/-- Field lookup in a parsed JSON object, last occurrence wins (as in
`JSON.parse` with duplicate keys). -/
def objLookup (fs : List (String × Json)) (k : String) : Option Json :=
  fs.foldl (fun acc p => if p.1 = k then some p.2 else acc) none

/-- JavaScript property access `v.k` on a non-`null` value: `none` models
`undefined`. (Access on `null` throws; see `jsGetE`.) -/
def jsGet (v : Json) (k : String) : Option Json :=
  match v with
  | .obj fs => objLookup fs k
  | _ => none

/-- JavaScript property access `v.k` including the throwing case: accessing a
property of `null` raises a `TypeError`. -/
def jsGetE (v : Json) (k : String) : Except Unit (Option Json) :=
  match v with
  | .null => .error ()
  | .obj fs => .ok (objLookup fs k)
  | _ => .ok none

/-- JavaScript `s.trim()`: strip leading and trailing whitespace. -/
def jsTrim (s : String) : String :=
  String.mk
    (((s.toList.dropWhile Char.isWhitespace).reverse.dropWhile
        Char.isWhitespace).reverse)

/-! ### ES `Map`s as association lists

`Map.set` on an existing key updates the value in place (keeping the key's
insertion position); on a new key it appends. `Map.get` returns the unique
binding; iteration order is insertion order. -/

/-- ES `Map.get`. -/
def mapGet {α : Type} (m : List (String × α)) (k : String) : Option α :=
  (m.find? (fun p => p.1 = k)).map (·.2)

/-- ES `Map.has`. -/
def mapHas {α : Type} (m : List (String × α)) (k : String) : Bool :=
  (mapGet m k).isSome

/-- ES `Map.set`: replace in place if the key exists, else append. -/
def mapSet {α : Type} (m : List (String × α)) (k : String) (v : α) :
    List (String × α) :=
  match m with
  | [] => [(k, v)]
  | p :: ps => if p.1 = k then (k, v) :: ps else p :: mapSet ps k v

/-- ES `Map.delete`. -/
def mapDelete {α : Type} (m : List (String × α)) (k : String) :
    List (String × α) :=
  m.filter (fun p => p.1 ≠ k)

/-! ### The incremental line demultiplexer

`claudeProcess.stdout.on('data', ...)` (index.js, stdout handler): the chunk
is appended to the per-conversation buffer, the buffer is split on `'\n'`
(`buffer.split('\n')`), the final fragment is popped back into the buffer
(`buffer = lines.pop()`), and the remaining complete lines are processed in
order. -/

/-- JavaScript `s.split('\n')` on a character list: always returns a nonempty
list; the last element is the fragment after the final newline. -/
def splitNl : List Char → List (List Char)
  | [] => [[]]
  | c :: cs =>
    if c = '\n' then [] :: splitNl cs
    else
      match splitNl cs with
      | [] => [[c]]
      | p :: ps => (c :: p) :: ps

/-- One step of the demultiplexer: append the chunk, split, pop the trailing
fragment. Returns the complete lines together with the new buffer. -/
def demuxStep (buf chunk : List Char) : List (List Char) × List Char :=
  let parts := splitNl (buf ++ chunk)
  (parts.dropLast, parts.getLastD [])

/-- Run the demultiplexer over a sequence of stdout chunks, starting from the
given buffer; yields all complete lines in arrival order and the final
buffer. -/
def demuxRun (buf : List Char) : List (List Char) → List (List Char) × List Char
  | [] => ([], buf)
  | c :: cs =>
    let p := demuxStep buf c
    let q := demuxRun p.2 cs
    (p.1 ++ q.1, q.2)

/-! ### Registry state

The module-level mutable maps of index.js, keyed by conversation id (or, for
`sessionTracking`, by session id). Process handles and sinks are abstract
identifiers. -/

/-- Values of `sessionTracking`: `{ conversationId, isResume }`. -/
structure SessionInfo where
  conversationId : String
  isResume : Bool
deriving DecidableEq

/-- The module-level mutable state of index.js. -/
structure State where
  claudeProcesses : List (String × Nat)
  activeStreams : List (String × Nat)
  conversationMessages : List (String × List Json)
  sessionTracking : List (String × SessionInfo)
  outputBuffers : List (String × List Char)
  conversationHtml : List (String × (String × Nat))
  conversationModels : List (String × String)
  globalJsonSchema : Option Json

/-! ### The event translator

The body of the per-line loop in the stdout handler of
`spawnClaudeForConversation`: parse the line, classify the record, write the
normalized frames to the bound sink (if any), and perform terminal cleanup
for `result`/`error` records and undecodable lines. -/

/-- A normalized outward SSE frame, as written with
`res.write('data: ' + JSON.stringify(frame) + '\n\n')`. -/
inductive Frame where
  | text (data : Json)
  | toolUse (data : Json)
  | done
  | error (data : Json)
  | raw (event : Json)

/-- An observable action on the bound sink: a frame write, or `res.end()`. -/
inductive SinkAction where
  | write (f : Frame)
  | close

/-- The fixed fallback message sent when a wire line cannot be parsed. -/
def fallbackMessage : String :=
  "Response generated but encountered parsing error. Check server logs for details."

/-- The `domChanges && response && action` check on a parsed text block
(`if (parsedJson.domChanges && parsedJson.response && parsedJson.action)`),
with JavaScript evaluation order and the `TypeError` thrown by property
access on `null`. -/
def structuredCheckE (j : Json) : Except Unit Bool := do
  let d ← jsGetE j "domChanges"
  if !jsTruthyOpt d then return false
  let r ← jsGetE j "response"
  if !jsTruthyOpt r then return false
  let a ← jsGetE j "action"
  return jsTruthyOpt a

/-- Handling of one `text` content block with truthy `block.text` (value
`tx`): try `JSON.parse(block.text.trim())`; on a structured-schema object
emit `tool_use` then the `response` text; otherwise emit the raw text.
`jsonParse` is the platform `JSON.parse`, returning `none` when it throws.
A truthy non-string `block.text` makes `.trim()` throw a `TypeError`, which
the inner `catch` turns into the raw-text fallback. -/
def handleTextBlock (jsonParse : String → Option Json) (tx : Json) :
    List SinkAction :=
  match tx with
  | .str s =>
    match jsonParse (jsTrim s) with
    | none => [.write (.text (.str s))]
    | some j =>
      match structuredCheckE j with
      | .error _ => [.write (.text (.str s))]
      | .ok false => [.write (.text (.str s))]
      | .ok true =>
        .write (.toolUse j) ::
          (match jsGet j "response" with
           | some r => if r.truthy then [.write (.text r)] else []
           | none => [])
  | other => [.write (.text other)]

/-- Handling of one content block of an assistant message
(`for (const block of event.message.content)`): a `text` block with truthy
text goes to `handleTextBlock`; a `tool_use` block with truthy input emits
`tool_use` and, when `input.response` is truthy, its text; other blocks are
only logged. `block.type` on a `null` block throws. -/
def handleBlockE (jsonParse : String → Option Json) (b : Json) :
    Except Unit (List SinkAction) := do
  let ty ← jsGetE b "type"
  match ty with
  | some (Json.str t) =>
    if t = "text" then do
      let tx ← jsGetE b "text"
      match tx with
      | some v => if v.truthy then return handleTextBlock jsonParse v else return []
      | none => return []
    else if t = "tool_use" then do
      let inp ← jsGetE b "input"
      match inp with
      | some i =>
        if i.truthy then do
          let r ← jsGetE i "response"
          match r with
          | some rv =>
            if rv.truthy then return [.write (.toolUse i), .write (.text rv)]
            else return [.write (.toolUse i)]
          | none => return [.write (.toolUse i)]
        else return []
      | none => return []
    else return []
  | _ => return []

/-- Run the block loop, accumulating the sink writes already performed; a
thrown exception aborts the loop but keeps the earlier writes (they have
already reached the sink). The boolean records whether the loop threw. -/
def runBlocks (jsonParse : String → Option Json) :
    List Json → List SinkAction × Bool
  | [] => ([], false)
  | b :: bs =>
    match handleBlockE jsonParse b with
    | .error _ => ([], true)
    | .ok as =>
      let p := runBlocks jsonParse bs
      (as ++ p.1, p.2)

/-- Optional chaining `event.message?.content`: it yields `undefined` when
`message` is `null`/`undefined`; `ev` itself is known non-`null` here. -/
def optChainContent (ev : Json) : Option Json :=
  match jsGet ev "message" with
  | none => none
  | some .null => none
  | some m => jsGet m "content"

/-- Iteration `for (const block of content)`: arrays iterate their elements; strings
iterate their characters (each a one-character string); other truthy values
are not iterable and throw a `TypeError`. -/
def contentBlocks : Json → Except Unit (List Json)
  | .arr xs => .ok xs
  | .str s => .ok (s.toList.map (fun c => Json.str (String.singleton c)))
  | _ => .error ()

/-- Classification of one successfully parsed record, with the sink bound.
Returns the sink actions, whether the branch performs terminal cleanup
(`result`/`error`), and whether evaluation threw (landing in the `catch`). -/
def dispatchEvent (jsonParse : String → Option Json) (ev : Json) :
    List SinkAction × Bool × Bool :=
  match jsGetE ev "type" with
  | .error _ => ([], false, true)
  | .ok ty =>
    let contentOpt := optChainContent ev
    match ty with
    | some (Json.str t) =>
      if t = "assistant" ∧ jsTruthyOpt contentOpt then
        match contentBlocks (contentOpt.getD .null) with
        | .error _ => ([], false, true)
        | .ok bs =>
          let p := runBlocks jsonParse bs
          (p.1, false, p.2)
      else if t = "result" then
        ([.write .done, .close], true, false)
      else if t = "error" then
        let d : Json :=
          match jsGet ev "error" with
          | some e => if e.truthy then e else .str "Unknown error"
          | none => .str "Unknown error"
        ([.write (.error d), .close], true, false)
      else ([.write (.raw ev)], false, false)
    | _ => ([.write (.raw ev)], false, false)

/-- Terminal cleanup: `activeStreams.delete(id)` and
`outputBuffers.delete(id)` (after `res.end()`). -/
def cleanupState (st : State) (cid : String) : State :=
  { st with activeStreams := mapDelete st.activeStreams cid,
            outputBuffers := mapDelete st.outputBuffers cid }

/-- Processing of one demultiplexed line: skip whitespace-only lines; parse;
with no bound sink every record (and every parse failure) is dropped without
effect; otherwise classify and write, with the `catch` branch emitting the
fixed fallback text and `done` and performing terminal cleanup. -/
def handleLine (jsonParse : String → Option Json) (st : State) (cid : String)
    (line : String) : State × List SinkAction :=
  if (jsTrim line).isEmpty then (st, [])
  else
    match jsonParse line with
    | none =>
      match mapGet st.activeStreams cid with
      | some _ =>
        (cleanupState st cid,
         [.write (.text (.str fallbackMessage)), .write .done, .close])
      | none => (st, [])
    | some ev =>
      match mapGet st.activeStreams cid with
      | none => (st, [])
      | some _ =>
        let p := dispatchEvent jsonParse ev
        if p.2.2 then
          (cleanupState st cid,
           p.1 ++ [.write (.text (.str fallbackMessage)), .write .done, .close])
        else if p.2.1 then (cleanupState st cid, p.1)
        else (st, p.1)

/-- The loop over the complete lines of one stdout chunk. -/
def processLines (jsonParse : String → Option Json) (st : State)
    (cid : String) : List String → State × List SinkAction
  | [] => (st, [])
  | l :: ls =>
    let p := handleLine jsonParse st cid l
    let q := processLines jsonParse p.1 cid ls
    (q.1, p.2 ++ q.2)

/-- The whole stdout `data` callback: demultiplex the chunk against the
stored buffer, store the new trailing fragment, then process the complete
lines. -/
def handleChunk (jsonParse : String → Option Json) (st : State) (cid : String)
    (chunk : List Char) : State × List SinkAction :=
  let buffer := ((mapGet st.outputBuffers cid).getD []) ++ chunk
  let parts := splitNl buffer
  let st1 : State :=
    { st with outputBuffers := mapSet st.outputBuffers cid (parts.getLastD []) }
  processLines jsonParse st1 cid (parts.dropLast.map (fun l => String.mk l))

/-! ### `JSON.stringify` -/

/-- Hex digit for string escapes. -/
def hexDigit (n : Nat) : String :=
  (["0", "1", "2", "3", "4", "5", "6", "7", "8", "9", "a", "b", "c", "d",
    "e", "f"]).getD n "0"

/-- Escaping of one character in `JSON.stringify`. -/
def escapeChar (c : Char) : String :=
  if c = '\\' then "\\\\"
  else if c = '"' then "\\\""
  else if c = '\n' then "\\n"
  else if c = '\r' then "\\r"
  else if c = '\t' then "\\t"
  else if c.toNat < 32 then
    "\\u00" ++ hexDigit (c.toNat / 16) ++ hexDigit (c.toNat % 16)
  else String.singleton c

/-- Escaping of a string body in `JSON.stringify`. -/
def escapeString (s : String) : String :=
  String.join (s.toList.map escapeChar)

mutual

/-- The `JSON.stringify` serialization. -/
def Json.serialize : Json → String
  | .null => "null"
  | .bool true => "true"
  | .bool false => "false"
  | .num n => toString n
  | .str s => "\"" ++ escapeString s ++ "\""
  | .arr xs => "[" ++ serializeList xs ++ "]"
  | .obj fs => "\x7b" ++ serializeFields fs ++ "\x7d"

def serializeList : List Json → String
  | [] => ""
  | [x] => Json.serialize x
  | x :: y :: xs => Json.serialize x ++ "," ++ serializeList (y :: xs)

def serializeFields : List (String × Json) → String
  | [] => ""
  | [p] => "\"" ++ escapeString p.1 ++ "\":" ++ Json.serialize p.2
  | p :: q :: ps =>
    "\"" ++ escapeString p.1 ++ "\":" ++ Json.serialize p.2 ++ ","
      ++ serializeFields (q :: ps)

end

/-! ### The process supervisor -/

/-- JavaScript `v || d` on an optional string (absent or empty is falsy). -/
def jsOrStr (v : Option String) (d : String) : String :=
  match v with
  | some s => if s.isEmpty then d else s
  | none => d

/-- Truthiness of an optional string parameter. -/
def truthyStr : Option String → Bool
  | some s => !s.isEmpty
  | none => false

/-- The fallback structured-output JSON schema (`DOM_CHANGES_SCHEMA`). -/
def DOM_CHANGES_SCHEMA : Json :=
  .obj
    [("type", .str "object"),
     ("properties", .obj
       [("domChanges", .obj
          [("type", .str "array"),
           ("description", .str "Array of DOM change objects. Each must have: selector (CSS), type (text|html|style|styleRules|class|attribute|javascript|move|create|delete), and type-specific properties."),
           ("items", .obj
             [("type", .str "object"),
              ("properties", .obj
                [("selector", .obj
                   [("type", .str "string"),
                    ("description", .str "CSS selector for target element(s)")]),
                 ("type", .obj
                   [("type", .str "string"),
                    ("enum", .arr [.str "text", .str "html", .str "style", .str "styleRules", .str "class", .str "attribute", .str "javascript", .str "move", .str "create", .str "delete"]),
                    ("description", .str "Type of DOM change to apply")]),
                 ("value", .obj
                   [("description", .str "Value for text/html/attribute changes, or CSS object for style changes")]),
                 ("css", .obj
                   [("type", .str "object"),
                    ("description", .str "CSS properties object for style type (alternative to value)")]),
                 ("states", .obj
                   [("type", .str "object"),
                    ("description", .str "CSS states for styleRules type (normal, hover, active, focus)")]),
                 ("add", .obj
                   [("type", .str "array"),
                    ("items", .obj [("type", .str "string")]),
                    ("description", .str "Classes to add (for class type)")]),
                 ("remove", .obj
                   [("type", .str "array"),
                    ("items", .obj [("type", .str "string")]),
                    ("description", .str "Classes to remove (for class type)")]),
                 ("element", .obj
                   [("type", .str "string"),
                    ("description", .str "HTML to create (for create type)")]),
                 ("targetSelector", .obj
                   [("type", .str "string"),
                    ("description", .str "Target location (for move/create types)")]),
                 ("position", .obj
                   [("type", .str "string"),
                    ("enum", .arr [.str "before", .str "after", .str "firstChild", .str "lastChild"]),
                    ("description", .str "Position relative to target")]),
                 ("important", .obj
                   [("type", .str "boolean"),
                    ("description", .str "Add !important flag to styles")]),
                 ("waitForElement", .obj
                   [("type", .str "boolean"),
                    ("description", .str "Wait for element to appear (SPA mode)")])]),
              ("required", .arr [.str "selector", .str "type"])])]),
        ("response", .obj
          [("type", .str "string"),
           ("description", .str "Markdown explanation of what you changed and why. No action descriptions (no \"I\x27ll click...\" or \"Let me navigate...\").")]),
        ("action", .obj
          [("type", .str "string"),
           ("enum", .arr [.str "append", .str "replace_all", .str "replace_specific", .str "remove_specific", .str "none"]),
           ("description", .str "How to apply changes: append=add to existing, replace_all=clear all first, replace_specific=replace specific selectors, remove_specific=remove specific selectors, none=no changes")]),
        ("targetSelectors", .obj
          [("type", .str "array"),
           ("description", .str "CSS selectors to target when action is replace_specific or remove_specific"),
           ("items", .obj [("type", .str "string")])])]),
     ("required", .arr [.str "domChanges", .str "response", .str "action"])]

/-- The `npx` argument vector built by `spawnClaudeForConversation`. -/
def claudeArgs (selectedModel : String) (schemaToUse : Json)
    (sessionId : Option String) (isResume : Bool)
    (systemPrompt : Option String) : List String :=
  ["@anthropic-ai/claude-code", "--print", "--verbose",
   "--output-format", "stream-json", "--input-format", "stream-json",
   "--replay-user-messages", "--permission-mode", "default",
   "--allowedTools", "Bash(curl:*),Bash(npx:*)", "--strict-mcp-config",
   "--model", selectedModel,
   "--settings", Json.serialize (Json.obj [("disableClaudeMd", Json.bool true)])]
  ++ (if truthyStr sessionId then
        if isResume then ["--resume", sessionId.getD ""]
        else ["--session-id", sessionId.getD ""]
      else [])
  ++ (if truthyStr systemPrompt then ["--system-prompt", systemPrompt.getD ""]
      else [])
  ++ ["--json-schema", Json.serialize schemaToUse]

/-- Function `spawnClaudeForConversation(conversationId, systemPrompt, sessionId,
isResume, model)`: if a process handle is already registered for the id it
is returned unchanged and every option is ignored; otherwise a fresh process
(`freshPid`, the handle produced by `spawn('npx', args)`) is registered.
The result carries the handle and, for a fresh spawn, the argument vector
used (`none` when an existing handle was reused). -/
def spawnClaudeForConversation (st : State) (conversationId : String)
    (systemPrompt : Option String) (sessionId : Option String)
    (isResume : Bool) (model : Option String) (freshPid : Nat) :
    State × Nat × Option (List String) :=
  match mapGet st.claudeProcesses conversationId with
  | some existing => (st, existing, none)
  | none =>
    let selectedModel :=
      jsOrStr model (jsOrStr (mapGet st.conversationModels conversationId) "sonnet")
    let schemaToUse : Json :=
      match st.globalJsonSchema with
      | some s => if s.truthy then s else DOM_CHANGES_SCHEMA
      | none => DOM_CHANGES_SCHEMA
    let args := claudeArgs selectedModel schemaToUse sessionId isResume systemPrompt
    ({ st with claudeProcesses := mapSet st.claudeProcesses conversationId freshPid },
     freshPid, some args)

/-- The `exit` handler installed on the spawned process: drop the process
handle and the output buffer, and close (without writing any further frame)
the bound sink if one is attached. -/
def handleProcessExit (st : State) (cid : String) : State × List SinkAction :=
  let st1 : State :=
    { st with claudeProcesses := mapDelete st.claudeProcesses cid,
              outputBuffers := mapDelete st.outputBuffers cid }
  match mapGet st1.activeStreams cid with
  | some _ =>
    ({ st1 with activeStreams := mapDelete st1.activeStreams cid }, [.close])
  | none => (st1, [])

/-- Character class `\w` of the attachment pattern. -/
def isWordChar (c : Char) : Bool := c.isAlphanum || c = '_'

/-- Strip an exact prefix from a character list. -/
def stripExact : List Char → List Char → Option (List Char)
  | [], rest => some rest
  | _ :: _, [] => none
  | p :: ps, c :: cs => if c = p then stripExact ps cs else none

/-- The attachment pattern match
`file.match(/^data:image\/(\w+);base64,(.+)$/)`: returns the captured
format and base64 payload, or `none` when the pattern does not match
(`.` does not match line terminators, `$` is the end of the string). -/
def dataUriMatch (file : String) : Option (String × String) :=
  match stripExact ("data:image/".toList) file.toList with
  | none => none
  | some rest =>
    let fmt := rest.takeWhile isWordChar
    let rest2 := rest.dropWhile isWordChar
    if fmt.isEmpty then none
    else
      match stripExact (";base64,".toList) rest2 with
      | none => none
      | some data =>
        if data.isEmpty then none
        else if data.any (fun c => c = '\n' || c = '\r') then none
        else some (String.mk fmt, String.mk data)

/-- Function `sendUserMessage(conversationId, content, files)`: with no live process
registered for the id the call only logs and returns — nothing is written
and no state changes; otherwise the user turn (text plus any attachments
matching the data-URI pattern) is recorded in the history and written as one
line-delimited record to the process input. The second component lists the
(process, record) stdin writes performed. -/
def sendUserMessage (st : State) (conversationId : String) (content : String)
    (files : List String) : State × List (Nat × Json) :=
  match mapGet st.claudeProcesses conversationId with
  | none => (st, [])
  | some pid =>
    let messages := ((mapGet st.conversationMessages conversationId).getD [])
      ++ [Json.obj [("role", .str "user"), ("content", .str content)]]
    let st1 : State :=
      { st with conversationMessages :=
          mapSet st.conversationMessages conversationId messages }
    let messageContent : Json :=
      if files.length > 0 then
        .arr (.obj [("type", .str "text"), ("text", .str content)] ::
          files.filterMap (fun f => (dataUriMatch f).map (fun m =>
            Json.obj
              [("type", .str "image"),
               ("source", .obj
                 [("type", .str "base64"),
                  ("media_type", .str ("image/" ++ m.1)),
                  ("data", .str m.2)])])))
      else .str content
    let userMessage := Json.obj
      [("type", .str "user"),
       ("message", .obj [("role", .str "user"), ("content", messageContent)])]
    (st1, [(pid, userMessage)])

/-! ### HTTP handlers -/

/-- The `{ success: true }` acknowledgment body. -/
def successJson : Json := Json.obj [("success", Json.bool true)]

/-- Route `POST /conversations`: create/refresh per-conversation bookkeeping, store
HTML and model selection, adopt a provided JSON schema, and record session
tracking — first sight of a session id records `isResume = false`, a later
sight records `isResume = true`. `now` is `Date.now()`. -/
def createConversation (st : State) (session_id : Option String)
    (jsonSchema : Option Json) (html : Option String) (model : Option String)
    (now : Nat) : State × Json :=
  let conversationId := jsOrStr session_id ("conv_" ++ toString now)
  let st : State :=
    { st with conversationMessages :=
        mapSet st.conversationMessages conversationId [] }
  let st : State :=
    if truthyStr html then
      { st with conversationHtml :=
          mapSet st.conversationHtml conversationId (html.getD "", now) }
    else st
  let selectedModel := jsOrStr model "sonnet"
  let st : State :=
    { st with conversationModels :=
        mapSet st.conversationModels conversationId selectedModel }
  let st : State :=
    if jsTruthyOpt jsonSchema then { st with globalJsonSchema := jsonSchema }
    else st
  let st : State :=
    if truthyStr session_id then
      let sid := session_id.getD ""
      let isResume := mapHas st.sessionTracking sid
      { st with sessionTracking :=
          mapSet st.sessionTracking sid ⟨conversationId, isResume⟩ }
    else st
  (st, Json.obj [("success", .bool true), ("conversationId", .str conversationId)])

/-- The spawn-time session lookup in `POST /conversations/:id/messages`: scan
`sessionTracking` in insertion order for the first entry whose
`conversationId` matches, yielding the session id and its recorded resume
flag. -/
def findSessionFor (tracking : List (String × SessionInfo)) (id : String) :
    Option String × Bool :=
  match tracking.find? (fun p => p.2.conversationId = id) with
  | some p => (some p.1, p.2.isResume)
  | none => (none, false)

/-- Route `POST /conversations/:id/messages`: adopt a provided schema; when no
process is registered, resolve the session, spawn, and (after the fixed
`setTimeout` delay, modelled as the following step) send the user message;
otherwise send directly. The HTTP response is `{ success: true }`
unconditionally. Result: new state, stdin writes, spawn argument vector (if
a process was spawned), response body. -/
def messagesHandler (st : State) (id : String) (content : String)
    (files : List String) (systemPrompt : Option String)
    (jsonSchema : Option Json) (freshPid : Nat) :
    State × List (Nat × Json) × Option (List String) × Json :=
  let st : State :=
    if jsTruthyOpt jsonSchema then { st with globalJsonSchema := jsonSchema }
    else st
  if !mapHas st.claudeProcesses id then
    let f := findSessionFor st.sessionTracking id
    let sp := spawnClaudeForConversation st id systemPrompt f.1 f.2 none freshPid
    let r := sendUserMessage sp.1 id content files
    (r.1, r.2, sp.2.2, successJson)
  else
    let r := sendUserMessage st id content files
    (r.1, r.2, none, successJson)

/-- Outcome of an Express handler: a response, or a synchronously thrown
exception (which Express's default error handler turns into a 500). -/
inductive HandlerOutcome where
  | response (status : Nat) (body : Json)
  | thrown (err : String)

/-- The HTTP status observed by the client: Express's default error handler
answers 500 for a synchronously thrown exception. -/
def expressStatus : HandlerOutcome → Nat
  | .response s _ => s
  | .thrown _ => 500

/-- The module-scope binding of the identifier `claudeProcess` in index.js.
The per-conversation rewrite keeps its processes in the `claudeProcesses`
map and declares no top-level `claudeProcess`; the identifier appears only
as function-local `const`s. `none` records that the identifier is undeclared
at module scope, so evaluating it throws a `ReferenceError`; `some v` would
be a declared binding with value `v` (inner `none` modelling `null`). -/
def claudeProcessGlobal : Option (Option Nat) := none

/-- Route `POST /conversations/:id/approve`: the handler first evaluates
`if (!claudeProcess)`. With the identifier declared and `null` it would
answer 400; with a process it would write a `control`/`approve` record; as
the module stands, evaluating `claudeProcess` throws. The second component
lists stdin writes. -/
def approveHandler (_st : State) (_id : String) (requestId data : Json) :
    HandlerOutcome × List (Nat × Json) :=
  match claudeProcessGlobal with
  | none => (.thrown "ReferenceError: claudeProcess is not defined", [])
  | some none =>
    (.response 400 (Json.obj [("error", .str "Claude CLI not started")]), [])
  | some (some pid) =>
    (.response 200 successJson,
     [(pid, Json.obj
        [("type", .str "control"), ("action", .str "approve"),
         ("requestId", requestId), ("data", data)])])

/-- Route `POST /conversations/:id/deny`: same shape as approve, with a
`control`/`deny` record carrying the reason. -/
def denyHandler (_st : State) (_id : String) (requestId reason : Json) :
    HandlerOutcome × List (Nat × Json) :=
  match claudeProcessGlobal with
  | none => (.thrown "ReferenceError: claudeProcess is not defined", [])
  | some none =>
    (.response 400 (Json.obj [("error", .str "Claude CLI not started")]), [])
  | some (some pid) =>
    (.response 200 successJson,
     [(pid, Json.obj
        [("type", .str "control"), ("action", .str "deny"),
         ("requestId", requestId), ("reason", reason)])])

/-! ### HTML chunk retrieval -/

/-- Outcome of `document.querySelector(selector)` on the stored document:
a matched element's `outerHTML`, no match, or a thrown invalid-selector
error. The query function stands for jsdom. -/
inductive QueryOutcome where
  | found (outerHtml : String)
  | notFound
  | invalid (msg : String)

/-- One entry of a chunk response (`{ selector, html, found, error? }`). -/
structure ChunkResult where
  selector : String
  html : String
  found : Bool
  error : Option String
deriving DecidableEq

/-- Function `extractChunk(html, selector, dom)`: query the document; a match yields
the element's outer HTML, no match yields `found: false` with an
element-not-found error, an invalid selector yields `found: false` with an
invalid-selector error. -/
def extractChunk (query : String → QueryOutcome) (selector : String) :
    ChunkResult :=
  match query selector with
  | .found h => ⟨selector, h, true, none⟩
  | .notFound => ⟨selector, "", false, some ("Element not found: " ++ selector)⟩
  | .invalid m => ⟨selector, "", false, some ("Invalid selector: " ++ m)⟩

/-- Body of a `GET /conversations/:id/chunk` response. -/
inductive ChunkBody where
  | err (msg : String)
  | single (r : ChunkResult)
  | multi (results : List ChunkResult)

/-- JavaScript `s.split(',')` on a character list (same shape as
`splitNl`). -/
def splitCommaList : List Char → List (List Char)
  | [] => [[]]
  | c :: cs =>
    if c = ',' then [] :: splitCommaList cs
    else
      match splitCommaList cs with
      | [] => [[c]]
      | p :: ps => (c :: p) :: ps

/-- The selector-list parse `selectors.split(',').map(s => s.trim()).filter(s => s)`. -/
def parseSelectors (ss : String) : List String :=
  (((splitCommaList ss.toList).map (fun l => jsTrim (String.mk l))).filter
    (fun s => !s.isEmpty))

/-- Route `GET /conversations/:id/chunk?selector=...` /
`?selectors=a,b,...`: parse the selector list; 400 with no selector, 404
with no stored HTML; one selector keeps the legacy single-object shape (404
when not found), two or more always answer 200 with one entry per selector.
`query` stands for jsdom's `querySelector` over a given document. -/
def chunkHandler (query : String → String → QueryOutcome) (st : State)
    (id : String) (selector selectors : Option String) : Nat × ChunkBody :=
  let selectorList : List String :=
    if truthyStr selectors then parseSelectors (selectors.getD "")
    else if truthyStr selector then [selector.getD ""]
    else []
  if selectorList.isEmpty then
    (400, .err "Missing selector or selectors query parameter")
  else
    match mapGet st.conversationHtml id with
    | none => (404, .err "Conversation not found or no HTML stored")
    | some stored =>
      let results := selectorList.map (extractChunk (query stored.1))
      if selectorList.length = 1 then
        let r := results.headD ⟨"", "", false, none⟩
        if !r.found then (404, .single r) else (200, .single r)
      else (200, .multi results)

/-! ### Claim-side predicates and concrete scenario data -/

/-- The code-side success condition of the structured-output check: all three
required fields are present AND truthy (this is what
`parsedJson.domChanges && parsedJson.response && parsedJson.action`
computes on a non-`null` object). -/
def requiredFieldsTruthy (j : Json) : Bool :=
  jsTruthyOpt (jsGet j "domChanges") && jsTruthyOpt (jsGet j "response")
    && jsTruthyOpt (jsGet j "action")

/-- Spec-side reading of the structured-output test, following the claim's
words: the required fields (domChanges, response, action) are PRESENT on the
parsed object — regardless of their values. -/
def claimFieldsPresent (j : Json) : Bool :=
  (jsGet j "domChanges").isSome && (jsGet j "response").isSome
    && (jsGet j "action").isSome

/-- The initial module state: every map empty, no global schema. -/
def emptyState : State :=
  { claudeProcesses := [], activeStreams := [], conversationMessages := [],
    sessionTracking := [], outputBuffers := [], conversationHtml := [],
    conversationModels := [], globalJsonSchema := none }

/-- A structured-output text block: `{"domChanges":[],"response":"ok","action":"none"}`. -/
def rawC1w : String :=
  "\x7b\"domChanges\":[],\"response\":\"ok\",\"action\":\"none\"\x7d"

/-- The parse of `rawC1w`. -/
def jC1w : Json :=
  .obj [("domChanges", .arr []), ("response", .str "ok"), ("action", .str "none")]

/-- Behaviour of `JSON.parse` on the strings of the `rawC1w` scenario. -/
def jpC1w : String → Option Json := fun s => if s = rawC1w then some jC1w else none

/-- A text block whose required fields are all present but where
`domChanges` is `false` (falsy):
`{"domChanges":false,"response":"ok","action":"none"}`. -/
def rawC1x : String :=
  "\x7b\"domChanges\":false,\"response\":\"ok\",\"action\":\"none\"\x7d"

/-- The parse of `rawC1x`. -/
def jC1x : Json :=
  .obj [("domChanges", .bool false), ("response", .str "ok"), ("action", .str "none")]

/-- Behaviour of `JSON.parse` on the strings of the `rawC1x` scenario. -/
def jpC1x : String → Option Json := fun s => if s = rawC1x then some jC1x else none

/-- A state with a live process handle 7 registered for conversation c1. -/
def stC3 : State :=
  { emptyState with claudeProcesses := [("c1", 7)],
                    conversationModels := [("c1", "sonnet")] }

/-- A parsed `result` record carrying a payload. -/
def evC4 : Json := .obj [("type", .str "result"), ("result", .str "done")]

/-- The wire line of `evC4`. -/
def lineC4 : String := "\x7b\"type\":\"result\",\"result\":\"done\"\x7d"

/-- Behaviour of `JSON.parse` on the `lineC4` scenario. -/
def jpC4 : String → Option Json := fun s => if s = lineC4 then some evC4 else none

/-- c1 has a live process, a bound sink and a buffered fragment. -/
def stC4w : State :=
  { emptyState with claudeProcesses := [("c1", 7)],
                    activeStreams := [("c1", 1)],
                    outputBuffers := [("c1", ['f'])] }

/-- c1 has a live process and a buffered fragment but NO bound sink. -/
def stC4x : State :=
  { emptyState with claudeProcesses := [("c1", 7)],
                    outputBuffers := [("c1", ['f'])] }

/-- An undecodable wire line. -/
def lineC5 : String := "not json"

/-- A parser on which every line fails (`JSON.parse` throws). -/
def jpC5 : String → Option Json := fun _ => none

/-- c1 has a bound sink and a buffered fragment. -/
def stC5 : State :=
  { emptyState with activeStreams := [("c1", 1)],
                    outputBuffers := [("c1", ['g'])] }

/-- c1 has a live process, a buffered fragment and an attached sink. -/
def stC6 : State :=
  { emptyState with claudeProcesses := [("c1", 7)],
                    activeStreams := [("c1", 2)],
                    outputBuffers := [("c1", ['h'])] }

/-- A conversation with stored HTML. -/
def stC10 : State :=
  { emptyState with conversationHtml := [("c1", ("<div id=\"a\"></div>", 5))] }

/-- A jsdom query oracle over the stored document: `#a` matches, `(` is an
invalid selector, everything else matches nothing. -/
def qC10 : String → String → QueryOutcome := fun _ sel =>
  if sel = "#a" then .found "<div id=\"a\"></div>"
  else if sel = "(" then .invalid "is not a valid selector"
  else .notFound

/-! ### Library lemmas for the proofs -/

theorem mapGet_mapSet_self {α : Type} (m : List (String × α)) (k : String)
    (v : α) : mapGet (mapSet m k v) k = some v := by
  induction m with
  | nil => simp [mapGet, mapSet, List.find?]
  | cons p ps ih =>
    by_cases h : p.1 = k
    · simp [mapSet, h, mapGet, List.find?]
    · simpa [mapSet, h, mapGet, List.find?] using ih

theorem mapHas_mapSet_self {α : Type} (m : List (String × α)) (k : String)
    (v : α) : mapHas (mapSet m k v) k = true := by
  simp [mapHas, mapGet_mapSet_self]

theorem splitNl_ne_nil (s : List Char) : splitNl s ≠ [] := by
  cases s with
  | nil => simp [splitNl]
  | cons c cs =>
    simp only [splitNl]
    split
    · simp
    · split <;> simp

/-- Every part produced by `splitNl` is free of the terminator. -/
theorem splitNl_no_newline (s : List Char) :
    ∀ l ∈ splitNl s, '\n' ∉ l := by
  induction s with
  | nil =>
    intro l hl
    simp only [splitNl, List.mem_singleton] at hl
    simp [hl]
  | cons c cs ih =>
    intro l hl
    by_cases hc : c = '\n'
    · have hsplit : splitNl (c :: cs) = [] :: splitNl cs := by
        simp [splitNl, hc]
      rw [hsplit] at hl
      rcases List.mem_cons.mp hl with h | h
      · simp [h]
      · exact ih l h
    · rcases hp : splitNl cs with _ | ⟨p, ps⟩
      · exact absurd hp (splitNl_ne_nil cs)
      · have hsplit : splitNl (c :: cs) = (c :: p) :: ps := by
          simp [splitNl, hc, hp]
        rw [hsplit] at hl
        rcases List.mem_cons.mp hl with h | h
        · subst h
          intro hmem
          rcases List.mem_cons.mp hmem with h | h
          · exact hc h.symm
          · exact ih p (by rw [hp]; exact List.mem_cons_self p ps) h
        · exact ih l (by rw [hp]; exact List.mem_cons_of_mem p h)

/-- The trailing fragment kept by the demultiplexer is terminator-free. -/
theorem splitNl_getLastD_no_newline (s : List Char) :
    '\n' ∉ (splitNl s).getLastD [] := by
  rcases hp : splitNl s with _ | ⟨p, ps⟩
  · exact absurd hp (splitNl_ne_nil s)
  · have hmem : (p :: ps).getLastD [] ∈ p :: ps := by
      rw [List.getLastD_cons]
      exact List.getLastD_mem_cons ps p
    exact splitNl_no_newline s _ (hp ▸ hmem)

/-- A terminator-free string splits into itself alone. -/
theorem splitNl_of_no_newline (s : List Char) (h : '\n' ∉ s) :
    splitNl s = [s] := by
  induction s with
  | nil => simp [splitNl]
  | cons c cs ih =>
    have hc : c ≠ '\n' := fun hc => h (by simp [hc])
    have hcs : '\n' ∉ cs := fun hm => h (by simp [hm])
    simp [splitNl, hc, ih hcs]

/-- Reconstruction: re-joining the complete lines (each with its terminator)
followed by the trailing fragment recovers the original character stream. -/
theorem splitNl_reconstruct (s : List Char) :
    ((splitNl s).dropLast.map (· ++ ['\n'])).flatten ++ (splitNl s).getLastD []
      = s := by
  induction s with
  | nil => rfl
  | cons c cs ih =>
    by_cases hc : c = '\n'
    · subst hc
      rcases hp : splitNl cs with _ | ⟨p, ps⟩
      · exact absurd hp (splitNl_ne_nil cs)
      · have hsplit : splitNl ('\n' :: cs) = [] :: p :: ps := by
          simp [splitNl, hp]
        rw [hp] at ih
        rw [hsplit, List.dropLast_cons_of_ne_nil (List.cons_ne_nil p ps),
          List.getLastD_cons]
        simp only [List.map_cons, List.flatten_cons, List.nil_append,
          List.singleton_append, List.cons_append, List.append_assoc]
        simp only [List.getLastD_cons] at ih ⊢
        rw [ih]
    · rcases hp : splitNl cs with _ | ⟨p, ps⟩
      · exact absurd hp (splitNl_ne_nil cs)
      · have hsplit : splitNl (c :: cs) = (c :: p) :: ps := by
          simp [splitNl, hc, hp]
        rw [hp] at ih
        rw [hsplit]
        cases ps with
        | nil =>
          simp only [List.dropLast_single, List.map_nil, List.flatten_nil,
            List.nil_append, List.getLastD_cons, List.getLastD_nil] at ih ⊢
          rw [ih]
        | cons q qs =>
          rw [List.dropLast_cons_of_ne_nil (List.cons_ne_nil q qs)] at ih ⊢
          simp only [List.getLastD_cons] at ih ⊢
          simp only [List.map_cons, List.flatten_cons, List.cons_append,
            List.append_assoc] at ih ⊢
          rw [ih]

/-- Invariant run of the demultiplexer: from a terminator-free buffer, the
yielded lines and final buffer reconstruct exactly `buf` followed by the
concatenation of all chunks, every yielded line and the final buffer are
terminator-free, and if no chunk contains a terminator then no line is
yielded and the buffer is the full concatenation. -/
theorem demuxRun_spec (chunks : List (List Char)) (buf : List Char)
    (hbuf : '\n' ∉ buf) :
    ((demuxRun buf chunks).1.map (· ++ ['\n'])).flatten
        ++ (demuxRun buf chunks).2 = buf ++ chunks.flatten
    ∧ (∀ l ∈ (demuxRun buf chunks).1, '\n' ∉ l)
    ∧ '\n' ∉ (demuxRun buf chunks).2
    ∧ ((∀ c ∈ chunks, '\n' ∉ c) →
        demuxRun buf chunks = ([], buf ++ chunks.flatten)) := by
  induction chunks generalizing buf with
  | nil =>
    refine ⟨by simp [demuxRun], by simp [demuxRun], by simpa [demuxRun], ?_⟩
    intro _
    simp [demuxRun]
  | cons c cs ih =>
    have hfrag : '\n' ∉ (splitNl (buf ++ c)).getLastD [] :=
      splitNl_getLastD_no_newline (buf ++ c)
    obtain ⟨ih1, ih2, ih3, ih4⟩ := ih ((splitNl (buf ++ c)).getLastD []) hfrag
    have hrun : demuxRun buf (c :: cs)
        = ((splitNl (buf ++ c)).dropLast
            ++ (demuxRun ((splitNl (buf ++ c)).getLastD []) cs).1,
           (demuxRun ((splitNl (buf ++ c)).getLastD []) cs).2) := by
      simp [demuxRun, demuxStep]
    refine ⟨?_, ?_, ?_, ?_⟩
    · rw [hrun]
      simp only [List.map_append, List.flatten_append, List.append_assoc]
      rw [ih1, ← List.append_assoc, splitNl_reconstruct (buf ++ c)]
      simp [List.append_assoc]
    · rw [hrun]
      intro l hl
      rcases List.mem_append.mp hl with h | h
      · exact splitNl_no_newline (buf ++ c) l (List.dropLast_subset _ h)
      · exact ih2 l h
    · rw [hrun]
      exact ih3
    · intro hnone
      have hc : '\n' ∉ c := hnone c (List.mem_cons_self c cs)
      have hbc : '\n' ∉ buf ++ c := by
        intro hm
        rcases List.mem_append.mp hm with h | h
        · exact hbuf h
        · exact hc h
      have hsplit : splitNl (buf ++ c) = [buf ++ c] :=
        splitNl_of_no_newline _ hbc
      have h4 := ih4 (fun d hd => hnone d (List.mem_cons_of_mem c hd))
      rw [hrun, hsplit]
      rw [hsplit] at h4
      simp only [List.getLastD_cons, List.getLastD_nil] at h4 ⊢
      rw [h4]
      simp [List.append_assoc]

theorem mapGet_mapDelete_self {α : Type} (m : List (String × α)) (k : String) :
    mapGet (mapDelete m k) k = none := by
  induction m with
  | nil => rfl
  | cons p ps ih =>
    by_cases h : p.1 = k
    · simp [mapDelete, List.filter_cons, h] at ih ⊢
      exact ih
    · simp only [mapDelete, List.filter_cons, mapGet, List.find?] at ih ⊢
      simp [h, ih]

theorem mapSet_of_not_has {α : Type} (m : List (String × α)) (k : String)
    (v : α) (h : mapHas m k = false) : mapSet m k v = m ++ [(k, v)] := by
  induction m with
  | nil => rfl
  | cons p ps ih =>
    by_cases hp : p.1 = k
    · exfalso
      simp [mapHas, mapGet, List.find?, hp] at h
    · have hps : mapHas ps k = false := by
        simpa [mapHas, mapGet, List.find?, hp] using h
      simp [mapSet, hp, ih hps]

/-- Splitting a stream that starts with a terminator-free line and its
terminator yields that line followed by the split of the remainder. -/
theorem splitNl_append_cons_newline (l t : List Char) (hl : '\n' ∉ l) :
    splitNl (l ++ '\n' :: t) = l :: splitNl t := by
  induction l with
  | nil => simp [splitNl]
  | cons c cs ih =>
    have hc : c ≠ '\n' := fun h => hl (by simp [h])
    have hcs : '\n' ∉ cs := fun h => hl (by simp [h])
    simp [splitNl, hc, ih hcs]

/-- Splitting is the inverse of joining terminator-free lines with their
terminators followed by a terminator-free fragment. -/
theorem splitNl_reconstruct_inv (ls : List (List Char)) (frag : List Char)
    (h1 : ∀ l ∈ ls, '\n' ∉ l) (h2 : '\n' ∉ frag) :
    splitNl ((ls.map (· ++ ['\n'])).flatten ++ frag) = ls ++ [frag] := by
  induction ls with
  | nil => simpa using splitNl_of_no_newline frag h2
  | cons l ls ih =>
    have hl : '\n' ∉ l := h1 l (List.mem_cons_self l ls)
    have hrest := ih (fun x hx => h1 x (List.mem_cons_of_mem l hx))
    have : (((l :: ls).map (· ++ ['\n'])).flatten ++ frag)
        = l ++ '\n' :: ((ls.map (· ++ ['\n'])).flatten ++ frag) := by
      simp [List.append_assoc]
    rw [this, splitNl_append_cons_newline _ _ hl, hrest]
    simp

/-- On a non-`null` value, the structured-output check computes exactly the
conjunction of the three field truthinesses. -/
theorem structuredCheckE_eq (j : Json) (hj : j ≠ Json.null) :
    structuredCheckE j = .ok (requiredFieldsTruthy j) := by
  cases j with
  | null => exact absurd rfl hj
  | bool b =>
    simp [structuredCheckE, jsGetE, requiredFieldsTruthy, jsGet, jsTruthyOpt,
      Bind.bind, Except.bind, pure, Except.pure]
  | num n =>
    simp [structuredCheckE, jsGetE, requiredFieldsTruthy, jsGet, jsTruthyOpt,
      Bind.bind, Except.bind, pure, Except.pure]
  | str s =>
    simp [structuredCheckE, jsGetE, requiredFieldsTruthy, jsGet, jsTruthyOpt,
      Bind.bind, Except.bind, pure, Except.pure]
  | arr xs =>
    simp [structuredCheckE, jsGetE, requiredFieldsTruthy, jsGet, jsTruthyOpt,
      Bind.bind, Except.bind, pure, Except.pure]
  | obj fs =>
    simp only [structuredCheckE, jsGetE, requiredFieldsTruthy, jsGet,
      Bind.bind, Except.bind]
    split_ifs with h1 h2 <;>
      simp_all [pure, Except.pure]

/-- The check `structuredCheckE` throws exactly on `null`. -/
theorem structuredCheckE_null : structuredCheckE Json.null = .error () := rfl

/-- A record whose `type` field is the string `"result"` is classified into
the result branch: emit `done`, close, request terminal cleanup — whatever
other fields (in particular any result payload) it carries. -/
theorem dispatchEvent_result (jp : String → Option Json) (ev : Json)
    (htype : jsGet ev "type" = some (.str "result")) :
    dispatchEvent jp ev = ([.write .done, .close], true, false) := by
  cases ev with
  | null => simp [jsGet] at htype
  | bool b => simp [jsGet] at htype
  | num n => simp [jsGet] at htype
  | str s => simp [jsGet] at htype
  | arr xs => simp [jsGet] at htype
  | obj fs =>
    simp only [jsGet] at htype
    simp [dispatchEvent, jsGetE, htype]

/-! ### The claims -/

/-- C2: for every sequence of raw stdout chunks, however the chunk
boundaries fall, the demultiplexer yields exactly the terminator-delimited
complete lines of the chunks' concatenation, in arrival order (first
conjunct: the run equals the split-and-pop of the whole concatenation;
second conjunct: re-joining the yielded lines with their terminators
followed by the buffer reconstructs the concatenation). No yielded line
contains a terminator (so a line is only ever yielded once its terminator
has been observed — instantiating the statement at any prefix of the chunk
sequence gives exactly the lines whose terminators arrived in that prefix),
and the buffer is always the trailing unterminated fragment. After N chunks
containing no terminator, no line has been yielded and the buffer is the
full concatenation. -/
theorem demux_yields_exactly_terminated_lines (chunks : List (List Char)) :
    demuxRun [] chunks
      = ((splitNl chunks.flatten).dropLast, (splitNl chunks.flatten).getLastD [])
    ∧ ((demuxRun [] chunks).1.map (· ++ ['\n'])).flatten ++ (demuxRun [] chunks).2
        = chunks.flatten
    ∧ (∀ l ∈ (demuxRun [] chunks).1, '\n' ∉ l)
    ∧ '\n' ∉ (demuxRun [] chunks).2
    ∧ ((∀ c ∈ chunks, '\n' ∉ c) → demuxRun [] chunks = ([], chunks.flatten)) := by
  obtain ⟨h1, h2, h3, h4⟩ := demuxRun_spec chunks [] (by simp)
  simp only [List.nil_append] at h1 h4
  have hexact : splitNl chunks.flatten
      = (demuxRun [] chunks).1 ++ [(demuxRun [] chunks).2] := by
    rw [← h1]
    exact splitNl_reconstruct_inv _ _ h2 h3
  refine ⟨?_, h1, h2, h3, h4⟩
  rw [hexact, List.dropLast_concat, List.getLastD_concat]

/-- Witness for C2: the terminator-free chunks `"ab"`, `"c"` yield no line
and leave the buffer equal to the full concatenation `"abc"`; and on chunks
`"ab\nc"`, `"d\n"` split mid-line, exactly the lines `"ab"` and `"cd"` are
yielded in order. -/
theorem demux_yields_exactly_terminated_lines_witness :
    demuxRun [] [['a', 'b'], ['c']] = ([], ['a', 'b', 'c'])
    ∧ demuxRun [] [['a', 'b', '\n', 'c'], ['d', '\n']]
        = ([['a', 'b'], ['c', 'd']], []) :=
  ⟨(demux_yields_exactly_terminated_lines [['a', 'b'], ['c']]).2.2.2.2
      (by decide),
   by
    have h := (demux_yields_exactly_terminated_lines
      [['a', 'b', '\n', 'c'], ['d', '\n']]).1
    rw [h]
    rfl⟩

/-- C1 (amended): for every text content block (with truthy text `raw`) of
an assistant record processed while a sink is bound: if
`JSON.parse(raw.trim())` succeeds with `j` and the required structured-output
fields (domChanges, response, action) are present with TRUTHY values, the
translator emits `ToolUse(j)` then `Text(j.response)`; if the text is not
JSON, or a required field is missing or falsy (including a `null`
parse result, whose field access throws and is caught), it emits exactly
one `Text(raw)` event with the block text verbatim. -/
theorem text_block_structured_or_fallback (jp : String → Option Json)
    (raw : String) (j : Json) :
    (jp (jsTrim raw) = some j →
      (requiredFieldsTruthy j = true →
        handleTextBlock jp (.str raw)
          = [.write (.toolUse j),
             .write (.text ((jsGet j "response").getD .null))])
      ∧ (requiredFieldsTruthy j = false →
        handleTextBlock jp (.str raw) = [.write (.text (.str raw))]))
    ∧ (jp (jsTrim raw) = none →
        handleTextBlock jp (.str raw) = [.write (.text (.str raw))]) := by
  constructor
  · intro hp
    constructor
    · intro ht
      have hnn : j ≠ Json.null := by
        intro h
        subst h
        simp [requiredFieldsTruthy, jsGet, jsTruthyOpt] at ht
      have hch := structuredCheckE_eq j hnn
      rw [ht] at hch
      have hr : jsTruthyOpt (jsGet j "response") = true := by
        simp only [requiredFieldsTruthy, Bool.and_eq_true] at ht
        exact ht.1.2
      cases hjr : jsGet j "response" with
      | none => simp [hjr, jsTruthyOpt] at hr
      | some r =>
        rw [hjr] at hr
        simp only [jsTruthyOpt] at hr
        simp [handleTextBlock, hp, hch, hjr, hr]
    · intro hf
      by_cases hnn : j = Json.null
      · subst hnn
        simp [handleTextBlock, hp, structuredCheckE_null]
      · have hch := structuredCheckE_eq j hnn
        rw [hf] at hch
        simp [handleTextBlock, hp, hch]
  · intro hp
    simp [handleTextBlock, hp]

/-- Witness for C1: the structured block
`{"domChanges":[],"response":"ok","action":"none"}` yields `ToolUse` then
`Text("ok")`; the non-JSON block `"hello"` yields only `Text("hello")`. -/
theorem text_block_structured_or_fallback_witness :
    handleTextBlock jpC1w (.str rawC1w)
      = [.write (.toolUse jC1w), .write (.text (.str "ok"))]
    ∧ handleTextBlock jpC1w (.str "hello")
      = [.write (.text (.str "hello"))] :=
  ⟨((text_block_structured_or_fallback jpC1w rawC1w jC1w).1 (by rfl)).1
      (by rfl),
   (text_block_structured_or_fallback jpC1w "hello" Json.null).2 (by rfl)⟩

/-- Counterexample to C1 as stated: in the block
`{"domChanges":false,"response":"ok","action":"none"}` all three required
fields are PRESENT, yet the code (which tests truthiness, not presence)
takes the fallback branch and emits a single `Text(raw)` instead of the
claimed `ToolUse` followed by `Text("ok")`. -/
theorem text_block_fields_present_counterexample :
    claimFieldsPresent jC1x = true
    ∧ jpC1x (jsTrim rawC1x) = some jC1x
    ∧ handleTextBlock jpC1x (.str rawC1x) = [.write (.text (.str rawC1x))]
    ∧ handleTextBlock jpC1x (.str rawC1x)
        ≠ [.write (.toolUse jC1x), .write (.text (.str "ok"))] := by
  have heval : handleTextBlock jpC1x (.str rawC1x)
      = [.write (.text (.str rawC1x))] := rfl
  refine ⟨rfl, rfl, heval, ?_⟩
  rw [heval]
  intro h
  simpa using congrArg List.length h

/-- C3: spawn is idempotent — for a conversation id with a registered live
process handle, `spawnClaudeForConversation` returns the existing handle,
leaves the whole registry state unchanged, and spawns nothing, whatever
system prompt, session id, resume flag and model are passed (they do not
occur in the result). -/
theorem spawn_idempotent_ignores_options (st : State) (cid : String)
    (pid : Nat) (h : mapGet st.claudeProcesses cid = some pid)
    (systemPrompt sessionId model : Option String) (isResume : Bool)
    (fresh : Nat) :
    spawnClaudeForConversation st cid systemPrompt sessionId isResume model
      fresh = (st, pid, none) := by
  simp [spawnClaudeForConversation, h]

/-- Witness for C3: with handle 7 registered for c1, a second spawn with a
prompt, a session id, the resume flag and another model returns handle 7 and
the unchanged state. -/
theorem spawn_idempotent_ignores_options_witness :
    spawnClaudeForConversation stC3 "c1" (some "prompt") (some "s9") true
      (some "opus") 42 = (stC3, 7, none) :=
  spawn_idempotent_ignores_options stC3 "c1" 7 rfl (some "prompt") (some "s9")
    (some "opus") true 42

/-- C4 (amended): for every parsed record with type `result`, regardless of
whether a result payload is present: when a sink is bound, the translator
emits `Done`, closes the sink and releases the conversation's buffer state —
the output-buffer entry and the sink binding are cleared; when NO sink is
bound, the record is dropped and no cleanup occurs (the buffer entry and all
other state are left untouched). -/
theorem result_record_cleanup (jp : String → Option Json) (st : State)
    (cid line : String) (ev : Json)
    (hline : (jsTrim line).isEmpty = false) (hparse : jp line = some ev)
    (htype : jsGet ev "type" = some (.str "result")) :
    ((mapGet st.activeStreams cid).isSome = true →
      handleLine jp st cid line
        = (cleanupState st cid, [.write .done, .close])
      ∧ mapGet (handleLine jp st cid line).1.outputBuffers cid = none
      ∧ mapGet (handleLine jp st cid line).1.activeStreams cid = none)
    ∧ (mapGet st.activeStreams cid = none →
        handleLine jp st cid line = (st, [])) := by
  have hd := dispatchEvent_result jp ev htype
  constructor
  · intro hsink
    cases hs : mapGet st.activeStreams cid with
    | none => rw [hs] at hsink; simp at hsink
    | some s =>
      have heq : handleLine jp st cid line
          = (cleanupState st cid, [.write .done, .close]) := by
        simp [handleLine, hline, hparse, hs, hd]
      refine ⟨heq, ?_, ?_⟩
      · rw [heq]
        simp [cleanupState, mapGet_mapDelete_self]
      · rw [heq]
        simp [cleanupState, mapGet_mapDelete_self]
  · intro hs
    simp [handleLine, hline, hparse, hs]

/-- Witness for C4: with a sink bound and a buffered fragment for c1, the
result record `{"type":"result","result":"done"}` produces `Done` and a
close, and both the buffer entry and the sink binding are gone. -/
theorem result_record_cleanup_witness :
    handleLine jpC4 stC4w "c1" lineC4
      = (cleanupState stC4w "c1", [.write .done, .close])
    ∧ mapGet (handleLine jpC4 stC4w "c1" lineC4).1.outputBuffers "c1" = none
    ∧ mapGet (handleLine jpC4 stC4w "c1" lineC4).1.activeStreams "c1" = none :=
  (result_record_cleanup jpC4 stC4w "c1" lineC4 evC4 rfl rfl rfl).1 rfl

/-- Counterexample to C4 as stated: the same result record processed while
NO sink is bound is dropped entirely — no `Done` is emitted and the
conversation's buffer entry survives, refuting "regardless of whether a sink
is currently bound". -/
theorem result_record_no_sink_counterexample :
    mapGet stC4x.activeStreams "c1" = none
    ∧ jpC4 lineC4 = some evC4
    ∧ jsGet evC4 "type" = some (Json.str "result")
    ∧ handleLine jpC4 stC4x "c1" lineC4 = (stC4x, [])
    ∧ mapGet (handleLine jpC4 stC4x "c1" lineC4).1.outputBuffers "c1"
        = some ['f']
    ∧ (handleLine jpC4 stC4x "c1" lineC4).2
        ≠ [SinkAction.write Frame.done, SinkAction.close] := by
  refine ⟨rfl, rfl, rfl, rfl, rfl, ?_⟩
  rw [show (handleLine jpC4 stC4x "c1" lineC4).2 = [] from rfl]
  intro h
  simpa using congrArg List.length h

/-- C5: for every complete line that fails to parse as JSON (with a sink
bound), the translator emits `Text(fallbackMessage)` then `Done`, closes the
sink, and performs the same cleanup as for a result record (`cleanupState`:
the buffer entry and sink binding are released); and the failure never
prevents the translation of the subsequent complete lines of the same
batch, which are processed from the cleaned state with their outputs
appended after the fallback frames. -/
theorem parse_failure_fallback (jp : String → Option Json) (st : State)
    (cid line : String) (s : Nat) (rest : List String)
    (hline : (jsTrim line).isEmpty = false) (hparse : jp line = none)
    (hsink : mapGet st.activeStreams cid = some s) :
    processLines jp st cid (line :: rest)
      = ((processLines jp (cleanupState st cid) cid rest).1,
         [.write (.text (.str fallbackMessage)), .write .done, .close]
           ++ (processLines jp (cleanupState st cid) cid rest).2)
    ∧ mapGet (cleanupState st cid).outputBuffers cid = none
    ∧ mapGet (cleanupState st cid).activeStreams cid = none := by
  refine ⟨?_, ?_, ?_⟩
  · simp [processLines, handleLine, hline, hparse, hsink]
  · simp [cleanupState, mapGet_mapDelete_self]
  · simp [cleanupState, mapGet_mapDelete_self]

/-- Witness for C5: the lone undecodable line `"not json"` with a sink bound
yields exactly the fallback text, `Done` and a close, and the cleaned
state. -/
theorem parse_failure_fallback_witness :
    processLines jpC5 stC5 "c1" [lineC5]
      = (cleanupState stC5 "c1",
         [.write (.text (.str fallbackMessage)), .write .done, .close]) := by
  have h := (parse_failure_fallback jpC5 stC5 "c1" lineC5 1 [] rfl rfl rfl).1
  simpa [processLines] using h

/-- C6 (amended): on process termination, the supervisor removes the
conversation's process handle and its output-buffer entry; an attached sink
is closed (`res.end()`) — without any terminal `Done`/`Error` frame being
written — and its binding removed; with no sink attached nothing further
happens. -/
theorem process_exit_removes_state (st : State) (cid : String) :
    mapGet (handleProcessExit st cid).1.claudeProcesses cid = none
    ∧ mapGet (handleProcessExit st cid).1.outputBuffers cid = none
    ∧ (mapHas st.activeStreams cid = true →
        (handleProcessExit st cid).2 = [.close]
        ∧ mapGet (handleProcessExit st cid).1.activeStreams cid = none)
    ∧ (mapHas st.activeStreams cid = false →
        (handleProcessExit st cid).2 = []) := by
  cases hs : mapGet st.activeStreams cid with
  | some s =>
    refine ⟨?_, ?_, fun _ => ⟨?_, ?_⟩, fun h => ?_⟩
    · simp [handleProcessExit, hs, mapGet_mapDelete_self]
    · simp [handleProcessExit, hs, mapGet_mapDelete_self]
    · simp [handleProcessExit, hs]
    · simp [handleProcessExit, hs, mapGet_mapDelete_self]
    · simp [mapHas, hs] at h
  | none =>
    refine ⟨?_, ?_, fun h => ?_, fun _ => ?_⟩
    · simp [handleProcessExit, hs, mapGet_mapDelete_self]
    · simp [handleProcessExit, hs, mapGet_mapDelete_self]
    · simp [mapHas, hs] at h
    · simp [handleProcessExit, hs]

/-- Witness for C6: for c1 with a live process, a buffered fragment and an
attached sink, exit removes the handle, buffer and binding and closes the
sink. -/
theorem process_exit_removes_state_witness :
    (handleProcessExit stC6 "c1").2 = [SinkAction.close]
    ∧ mapGet (handleProcessExit stC6 "c1").1.claudeProcesses "c1" = none
    ∧ mapGet (handleProcessExit stC6 "c1").1.outputBuffers "c1" = none
    ∧ mapGet (handleProcessExit stC6 "c1").1.activeStreams "c1" = none := by
  obtain ⟨h1, h2, h3, _⟩ := process_exit_removes_state stC6 "c1"
  exact ⟨(h3 rfl).1, h1, h2, (h3 rfl).2⟩

/-- Counterexample to C6 as stated: on exit with a sink attached the action
list is exactly `[close]` — every element is a close and no frame write
occurs at all, so the attached sink does NOT receive a terminal `Done` or
`Error` event before being closed. -/
theorem process_exit_no_terminal_event_counterexample :
    mapHas stC6.activeStreams "c1" = true
    ∧ (handleProcessExit stC6 "c1").2 = [SinkAction.close]
    ∧ ((handleProcessExit stC6 "c1").2.all
        (fun a => match a with | .write _ => false | .close => true)) = true
    ∧ SinkAction.write Frame.done ∉ (handleProcessExit stC6 "c1").2 := by
  refine ⟨rfl, rfl, rfl, ?_⟩
  rw [show (handleProcessExit stC6 "c1").2 = [SinkAction.close] from rfl]
  intro hmem
  simp at hmem

/-- The session-tracking map after `POST /conversations` with a nonempty
session id: the only registry key the route writes into `sessionTracking`
is the session id itself, bound to the conversation id (equal to the session
id) and the has-been-seen-before flag. -/
theorem createConversation_sessionTracking (st : State) (s : String)
    (hs : s.isEmpty = false) (js : Option Json) (html model : Option String)
    (now : Nat) :
    (createConversation st (some s) js html model now).1.sessionTracking
      = mapSet st.sessionTracking s ⟨s, mapHas st.sessionTracking s⟩ := by
  simp only [createConversation, jsOrStr, truthyStr, hs]
  split_ifs <;> simp_all

theorem find?_append_of_none {α : Type} (l₁ l₂ : List α) (p : α → Bool)
    (h : l₁.find? p = none) : (l₁ ++ l₂).find? p = l₂.find? p := by
  rw [List.find?_append, h, Option.none_or]

theorem string_isEmpty_data (s : String) (h : s.isEmpty = true) :
    s.data = [] := by
  cases s with
  | mk data =>
    cases data with
    | nil => rfl
    | cons c cs =>
      exfalso
      simp [String.isEmpty, String.endPos, String.utf8ByteSize] at h
      have hb := congrArg String.Pos.byteIdx h
      simp at hb
      have hpos := Char.utf8Size_pos c
      omega

/-- C7: the first `POST /conversations` carrying a session id records the
session with `isResume = false`; every later `POST /conversations` carrying
the same session id records `isResume = true`; and (provided no other
session entry already points at the same conversation id) the recorded entry
is exactly what the spawn-time lookup `findSessionFor` — whose result the
messages route passes to `spawnClaudeForConversation` — returns. -/
theorem session_resume_tracking (st : State) (s : String)
    (hs : s.isEmpty = false) (js js2 : Option Json)
    (html html2 model model2 : Option String) (now now2 : Nat) :
    (mapHas st.sessionTracking s = false →
      mapGet (createConversation st (some s) js html model now).1.sessionTracking
          s = some ⟨s, false⟩
      ∧ mapGet (createConversation
            (createConversation st (some s) js html model now).1
            (some s) js2 html2 model2 now2).1.sessionTracking s
          = some ⟨s, true⟩)
    ∧ (mapHas st.sessionTracking s = true →
        mapGet (createConversation st (some s) js html model now).1.sessionTracking
          s = some ⟨s, true⟩)
    ∧ ((∀ p ∈ st.sessionTracking, p.2.conversationId ≠ s) →
        mapHas st.sessionTracking s = false →
        findSessionFor
          (createConversation st (some s) js html model now).1.sessionTracking s
          = (some s, false)) := by
  have h1 := createConversation_sessionTracking st s hs js html model now
  refine ⟨fun hnew => ⟨?_, ?_⟩, fun hseen => ?_, fun hno hnew => ?_⟩
  · rw [h1, hnew]
    exact mapGet_mapSet_self _ _ _
  · have h2 := createConversation_sessionTracking
      (createConversation st (some s) js html model now).1 s hs js2 html2
      model2 now2
    rw [h2, h1, hnew, mapHas_mapSet_self]
    exact mapGet_mapSet_self _ _ _
  · rw [h1, hseen]
    exact mapGet_mapSet_self _ _ _
  · rw [h1, hnew, mapSet_of_not_has _ _ _ hnew]
    have hfind : st.sessionTracking.find?
        (fun p => p.2.conversationId = s) = none := by
      rw [List.find?_eq_none]
      intro x hx
      simp [hno x hx]
    simp [findSessionFor, find?_append_of_none _ _ _ hfind, List.find?]

/-- Witness for C7: from the empty registry, creating a conversation with
session id s1 records resume `false`; creating again records `true`; and
the spawn-time lookup sees the first recording. -/
theorem session_resume_tracking_witness :
    mapGet (createConversation emptyState (some "s1") none none none
        0).1.sessionTracking "s1" = some ⟨"s1", false⟩
    ∧ mapGet (createConversation
          (createConversation emptyState (some "s1") none none none 0).1
          (some "s1") none none none 1).1.sessionTracking "s1"
        = some ⟨"s1", true⟩
    ∧ findSessionFor (createConversation emptyState (some "s1") none none none
        0).1.sessionTracking "s1" = (some "s1", false) := by
  obtain ⟨h1, _, h3⟩ := session_resume_tracking emptyState "s1" rfl none none
    none none none none 0 1
  exact ⟨(h1 rfl).1, (h1 rfl).2, h3 (by simp [emptyState]) rfl⟩

/-- C8 (code bug): both `POST /conversations/:id/approve` and
`POST /conversations/:id/deny` evaluate the undeclared identifier
`claudeProcess` — regardless of the registry state and of the request — so
every call throws a `ReferenceError`, writes nothing to any process input,
and surfaces as a 500 from Express's default error handler instead of the
documented 400-or-write-control-record behaviour. -/
theorem approve_deny_throw_reference_error (st : State) (id : String)
    (requestId data reason : Json) :
    approveHandler st id requestId data
      = (.thrown "ReferenceError: claudeProcess is not defined", [])
    ∧ denyHandler st id requestId reason
      = (.thrown "ReferenceError: claudeProcess is not defined", [])
    ∧ expressStatus (approveHandler st id requestId data).1 = 500
    ∧ expressStatus (denyHandler st id requestId reason).1 = 500 :=
  ⟨rfl, rfl, rfl, rfl⟩

/-- C9: a `sendUserMessage` call for a conversation with no live registered
process writes nothing to any process input and leaves the state completely
unchanged (only a log line is produced), while the HTTP response of
`POST /conversations/:id/messages` is the success acknowledgment
unconditionally. -/
theorem send_without_process_silent_success (st : State)
    (cid content : String) (files : List String)
    (h : mapGet st.claudeProcesses cid = none)
    (systemPrompt : Option String) (jsonSchema : Option Json) (fresh : Nat) :
    sendUserMessage st cid content files = (st, [])
    ∧ (messagesHandler st cid content files systemPrompt jsonSchema
        fresh).2.2.2 = successJson := by
  constructor
  · simp [sendUserMessage, h]
  · simp only [messagesHandler]
    split_ifs <;> rfl

/-- Witness for C9: on the empty registry, sending is a silent no-op and
the route still acknowledges success. -/
theorem send_without_process_silent_success_witness :
    sendUserMessage emptyState "c1" "hi" [] = (emptyState, [])
    ∧ (messagesHandler emptyState "c1" "hi" [] none none 3).2.2.2
        = successJson :=
  send_without_process_silent_success emptyState "c1" "hi" [] rfl none none 3

/-- C10: for a conversation with stored HTML, a request with exactly one
selector that matches nothing answers 404 with a `found: false` single
object, while a request with two or more selectors always answers 200 with
one `extractChunk` entry per requested selector in request order — where a
non-matching or invalid selector shows up as a `found: false` entry carrying
an error string (never as a non-200 response). -/
theorem chunk_single_404_multi_200 (q : String → String → QueryOutcome)
    (st : State) (id html : String) (ts : Nat)
    (hstored : mapGet st.conversationHtml id = some (html, ts)) :
    (∀ sel : String, sel.isEmpty = false → q html sel = .notFound →
      chunkHandler q st id (some sel) none
        = (404, .single ⟨sel, "", false, some ("Element not found: " ++ sel)⟩))
    ∧ (∀ ss : String, 2 ≤ (parseSelectors ss).length →
        chunkHandler q st id none (some ss)
          = (200, .multi ((parseSelectors ss).map (extractChunk (q html)))))
    ∧ (∀ sel : String,
        q html sel = .notFound ∨ (∃ m, q html sel = .invalid m) →
        (extractChunk (q html) sel).found = false
        ∧ (extractChunk (q html) sel).error ≠ none
        ∧ (extractChunk (q html) sel).selector = sel)
    ∧ (∀ ss : String,
        ((parseSelectors ss).map (extractChunk (q html))).length
          = (parseSelectors ss).length) := by
  refine ⟨fun sel h1 h2 => ?_, fun ss hlen => ?_, fun sel h => ?_, fun ss => ?_⟩
  · simp [chunkHandler, truthyStr, h1, hstored, extractChunk, h2]
  · have hss : ss.isEmpty = false := by
      cases hempty : ss.isEmpty
      · rfl
      · exfalso
        have hdata : ss.data = [] := string_isEmpty_data ss hempty
        have : parseSelectors ss = [] := by
          simp only [parseSelectors, String.toList, hdata, splitCommaList,
            jsTrim]
          rfl
        rw [this] at hlen
        simp at hlen
    have hne : parseSelectors ss ≠ [] := by
      intro e
      rw [e] at hlen
      simp at hlen
    have hnotone : ¬(parseSelectors ss).length = 1 := by omega
    simp [chunkHandler, truthyStr, hss, hstored, hne, hnotone]
  · rcases h with h | ⟨m, h⟩
    · simp [extractChunk, h]
    · simp [extractChunk, h]
  · simp

/-- Witness for C10: on the stored document, the single non-matching
selector `.missing` gives 404 `found: false`, while the pair
`#a,.missing` gives 200 with one entry per selector: the first found, the
second `found: false` with an error string. -/
theorem chunk_single_404_multi_200_witness :
    chunkHandler qC10 stC10 "c1" (some ".missing") none
      = (404, .single ⟨".missing", "", false,
          some "Element not found: .missing"⟩)
    ∧ chunkHandler qC10 stC10 "c1" none (some "#a,.missing")
      = (200, .multi
          [⟨"#a", "<div id=\"a\"></div>", true, none⟩,
           ⟨".missing", "", false, some "Element not found: .missing"⟩]) := by
  obtain ⟨h1, h2, _, _⟩ := chunk_single_404_multi_200 qC10 stC10 "c1"
    "<div id=\"a\"></div>" 5 rfl
  constructor
  · exact h1 ".missing" rfl rfl
  · have h := h2 "#a,.missing" (by rfl)
    rw [h]
    rfl

end Bridge
